import Mathlib

/-!
# Screen-Translate core pipeline: shallow embedding and verification

This file embeds the claim-relevant parts of the Screen-Translate
repository in Lean 4 and proves (or refutes) the frozen claims about it.

Embedded modules (Python source → Lean):
* `src/screen_translate/core/cache.py`       → namespace `Cache`
* `src/screen_translate/core/engine.py`      → namespace `Engine`
* `src/screen_translate/core/translator.py`  → namespace `Translator`
* `src/screen_translate/core/audio_processor.py` → namespace `Audio`

Modelling conventions:
* Python `float` timestamps and TTLs are modelled as integers `ℤ`: the
  claims only compare elapsed time against the TTL in an ordered additive
  group, and `ℤ` keeps every concrete instance kernel-computable.
* Python `float` confidences are modelled as rationals `ℚ`.
* Python whitespace (`str.strip()`, regex `\s`) is modelled over the six
  ASCII whitespace characters; claims only involve these.
* Qt signal emissions are modelled as values of an `Event` inductive
  collected in emission order; `log_message` emissions are omitted
  (no claim refers to them).
* `time.sleep(self._interval)` calls are counted, not performed.
-/

namespace ScreenTranslate

/-- ASCII whitespace, the characters stripped by Python `str.strip()` and
matched by the regex class `\s` (restricted to ASCII). -/
def isWS (c : Char) : Bool :=
  c = ' ' || c = '\t' || c = '\n' || c = '\r' || c = '\x0b' || c = '\x0c'

/-- `text.strip()`: drop ASCII whitespace from both ends. -/
def stripWS (l : List Char) : List Char :=
  ((l.dropWhile isWS).reverse.dropWhile isWS).reverse

/-- Helper for `collapseWS`: the boolean records whether the previous
character was whitespace (i.e. we are inside a run already replaced by a
single space). -/
def collapseAux : Bool → List Char → List Char
  | _, [] => []
  | inRun, c :: rest =>
    if isWS c then
      if inRun then collapseAux true rest
      else ' ' :: collapseAux true rest
    else c :: collapseAux false rest

/-- `re.sub(r'\s+', ' ', text)`: replace each maximal whitespace run by a
single space. -/
def collapseWS (l : List Char) : List Char := collapseAux false l

/-- Python `str.strip()` on a Lean `String`. -/
def pyStrip (s : String) : String := ⟨stripWS s.data⟩

/-- The normalization performed by `TranslationCache.should_translate`:
`text.strip()` followed by `re.sub(r'\s+', ' ', ...)`. -/
def normalize (s : String) : String := ⟨collapseWS (stripWS s.data)⟩

/-- The first character, if any, is not whitespace. -/
def noLeadWS : List Char → Bool
  | [] => true
  | c :: _ => !isWS c

/-- The last character, if any, is not whitespace. -/
def noTrailWS : List Char → Bool
  | [] => true
  | [c] => !isWS c
  | _ :: c :: rest => noTrailWS (c :: rest)

/-- No two adjacent characters are both whitespace. -/
def noAdjWS : List Char → Bool
  | a :: b :: rest => (!(isWS a && isWS b)) && noAdjWS (b :: rest)
  | _ => true

/-- `true` iff the optional character is absent or not whitespace. -/
def notWSopt : Option Char → Bool
  | none => true
  | some c => !isWS c

/-- A string in the form produced by `normalize` on non-blank input:
non-empty, no leading/trailing whitespace, no run of two or more
consecutive whitespace characters. -/
def isNormalizedStr (s : String) : Bool :=
  !s.data.isEmpty && noLeadWS s.data && noTrailWS s.data && noAdjWS s.data

namespace Cache

/-- `cache.py` `CacheEntry`: the single stored text with its timestamp. -/
structure CacheEntry where
  text : String
  timestamp : ℤ
deriving Repr, DecidableEq

/-- `cache.py` `TranslationCache` state: configured TTL and the optional
single entry. -/
structure TranslationCache where
  ttl : ℤ
  entry : Option CacheEntry
deriving Repr, DecidableEq

/-- `TranslationCache.should_translate`.  The Python method reads
`time.monotonic()`; here the current time is passed explicitly.  Returns
the boolean result together with the cache state after the call. -/
def should_translate (c : TranslationCache) (text : String) (now : ℤ) :
    Bool × TranslationCache :=
  let normalized := normalize text
  if normalized = "" then (false, c)
  else
    match c.entry with
    | none => (true, { c with entry := some ⟨normalized, now⟩ })
    | some e =>
      if normalized ≠ e.text || now - e.timestamp > c.ttl then
        (true, { c with entry := some ⟨normalized, now⟩ })
      else (false, c)

end Cache

namespace Engine

/-- `ocr_processor.py` `OCRResult`: text plus confidence. -/
structure OCRResult where
  text : String
  confidence : ℚ
deriving Repr

/-- The Qt signals emitted by `TranslationEngine` that the claims refer
to.  `log_message` emissions are omitted (no claim mentions them). -/
inductive Event where
  | ocrTextDetected (text : String)
  | languageDetected (lang : String)
  | translationRequested (text srcLang tgtLang : String)
  | translationReceived (text : String)
  | translationReady (text : String)
  | engineError (msg : String)
deriving Repr, DecidableEq

/-- Outcome of `self._capturer.capture(...)` in one loop iteration:
`none` models a `None` return, `frame rs` models a successful capture
whose subsequent `self._ocr.read_text` call yields the results `rs`. -/
inductive CaptureOutcome where
  | fail
  | frame (results : List OCRResult)
deriving Repr

/-- Outcome of the `self._translator.translate(text)` call in one loop
iteration: the call raises, returns a result object, or returns `None`. -/
inductive TranslateOutcome where
  | raises (msg : String)
  | returns (text : String)
  | returnsNone
deriving Repr

/-- `" ".join(r.text for r in ocr_results).strip()` (engine.py line 94). -/
def mergeText (rs : List OCRResult) : String :=
  pyStrip (String.intercalate " " (rs.map (fun r => r.text)))

/-- Result of one iteration of `TranslationEngine.run`'s `while` body:
the events emitted (in order), the number of `self._sleep_interval()`
calls executed, and the cache state afterwards. -/
structure IterResult where
  events : List Event
  sleeps : Nat
  cache : Cache.TranslationCache
deriving Repr

/-- The `try` block of `TranslationEngine.run`'s loop body
(engine.py lines 76-136), without the `finally` clause.  Returns the
events emitted, the number of `self._sleep_interval()` calls made inside
the `try` block (the skip paths call it explicitly before `continue`),
and the cache state afterwards.  `translatorSet` models
`self._translator` being non-`None`; the `except` clause's
`engine_error` emission is included in the `.raises` case. -/
def runBody (cache : Cache.TranslationCache) (now : ℤ) (cap : CaptureOutcome)
    (trans : TranslateOutcome) (translatorSet : Bool) (srcLang tgtLang : String) :
    List Event × Nat × Cache.TranslationCache :=
  match cap with
  | .fail => ([], 1, cache)
  | .frame rs =>
    let text := mergeText rs
    if text = "" then ([], 1, cache)
    else
      let st := Cache.should_translate cache text now
      if !st.1 then ([], 1, st.2)
      else
        let evs := [Event.ocrTextDetected text, Event.languageDetected srcLang]
        if translatorSet then
          let evs := evs ++ [Event.translationRequested text srcLang tgtLang]
          match trans with
          | .raises msg => (evs ++ [Event.engineError ("发生错误: " ++ msg)], 0, st.2)
          | .returns t =>
            (evs ++ [Event.translationReceived t, Event.translationReady t], 0, st.2)
          | .returnsNone => (evs, 0, st.2)
        else (evs, 0, st.2)

/-- One full iteration of `TranslationEngine.run`'s loop body: the `try`
block followed by the `finally: self._sleep_interval()` clause, which
runs on every path out of the body (including `continue`). -/
def runIteration (cache : Cache.TranslationCache) (now : ℤ) (cap : CaptureOutcome)
    (trans : TranslateOutcome) (translatorSet : Bool) (srcLang tgtLang : String) :
    IterResult :=
  let (evs, slp, c) := runBody cache now cap trans translatorSet srcLang tgtLang
  { events := evs, sleeps := slp + 1, cache := c }

/-- Whether an iteration with these inputs takes one of the three skip
paths (capture failure, empty merged text, deduplication skip). -/
def skipsCycle (cache : Cache.TranslationCache) (now : ℤ) (cap : CaptureOutcome) :
    Bool :=
  match cap with
  | .fail => true
  | .frame rs =>
    mergeText rs = "" || !(Cache.should_translate cache (mergeText rs) now).1

/-- Inputs for one loop iteration: the current monotonic time, the
capture/OCR outcome, and the translation-call outcome. -/
structure CycleInput where
  now : ℤ
  cap : CaptureOutcome
  trans : TranslateOutcome
deriving Repr

/-- The run loop over a finite schedule of cycle inputs.  Per-cycle
exceptions are caught inside the body (`except Exception`), so the loop
itself processes every scheduled cycle; it ends only when the lifecycle
flags change, which no claim-relevant cycle does. -/
def runLoop (cache : Cache.TranslationCache) (translatorSet : Bool)
    (srcLang tgtLang : String) : List CycleInput → List Event × Cache.TranslationCache
  | [] => ([], cache)
  | c :: rest =>
    let r := runIteration cache c.now c.cap c.trans translatorSet srcLang tgtLang
    let (evs, final) := runLoop r.cache translatorSet srcLang tgtLang rest
    (r.events ++ evs, final)

/-- The lifecycle-relevant state of a `TranslationEngine` object:
`running` is the `self._running` event, `stopEvent` is
`self._stop_event`, `threadAlive` is `self.is_alive()`,
`threadStartCount` counts `threading.Thread.start(self)` calls (i.e.
background run loops ever started), `ocrStarted` is
`self._ocr._reader is not None`, `capturerStarted` is
`self._capturer._sct is not None`, and `translatorSet` is
`self._translator is not None`. -/
structure EngineState where
  running : Bool
  stopEvent : Bool
  threadAlive : Bool
  threadStartCount : Nat
  capturerStarted : Bool
  ocrStarted : Bool
  translatorSet : Bool
deriving Repr, DecidableEq

/-- A freshly constructed engine (`TranslationEngine.__init__`). -/
def initEngine : EngineState :=
  { running := false, stopEvent := false, threadAlive := false,
    threadStartCount := 0, capturerStarted := false, ocrStarted := false,
    translatorSet := false }

/-- `TranslationEngine.start` (engine.py lines 41-60).  `ocrOk` models
whether `OCRProcessor.start()` succeeds (the `easyocr` dependency is
importable and the reader loads); when it raises, the `RuntimeError`
message propagates to the caller and is returned as `some msg`, and the
returned state is the engine object as the exception leaves it.  The
`set_languages` guard (ocr_processor.py lines 37-41) raises if the OCR
reader already exists. -/
def start (s : EngineState) (ocrOk : Bool) : EngineState × Option String :=
  if s.running then (s, none)
  else
    let s1 := { s with running := true, stopEvent := false }
    if s1.ocrStarted then
      (s1, some "Cannot change languages while OCR is running. Call stop() first.")
    else
      let s2 := { s1 with capturerStarted := true }
      if !ocrOk then (s2, some "EasyOCR 未安装，请先安装依赖 easyocr。")
      else
        let s3 := { s2 with ocrStarted := true, translatorSet := true }
        if !s3.threadAlive then
          ({ s3 with threadAlive := true, threadStartCount := s3.threadStartCount + 1 },
           none)
        else (s3, none)

/-- `TranslationEngine.stop` (engine.py lines 145-153): no-op unless
running; otherwise signals cancellation, stops capturer and OCR, and
joins the thread (best-effort, modelled as the thread having exited). -/
def stop (s : EngineState) : EngineState :=
  if !s.running then s
  else
    { s with stopEvent := true, running := false, capturerStarted := false,
             ocrStarted := false, threadAlive := false }

/-- `TranslationEngine.is_running` (engine.py lines 155-157). -/
def is_running (s : EngineState) : Bool := s.running

end Engine

namespace Cache

/-- Decidable form of the cache invariant: the stored entry, when
present, holds a normalized text (non-empty, no leading/trailing
whitespace, no adjacent whitespace pair). -/
def entryNormalizedB (c : TranslationCache) : Bool :=
  match c.entry with
  | none => true
  | some e => isNormalizedStr e.text

end Cache

namespace Translator

/-- `config/schemas.py` `ApiConfig`.  `api_key` and `system_prompt` are
`Optional[str]` defaulting to `None`. -/
structure ApiConfig where
  endpoint : String
  api_key : Option String
  model : String
  system_prompt : Option String
deriving Repr, DecidableEq

/-- `translator.py` `TranslationResult`. -/
structure TranslationResult where
  text : String
deriving Repr, DecidableEq

/-- The fixed instruction text prepended to every translation request
(translator.py lines 37-44). -/
def fixedInstruction : String :=
  "你是一个专业的简体中文母语译者，需将文本流畅地翻译为简体中文。\n" ++
  "## 翻译规则\n" ++
  "1. 仅输出译文内容，禁止解释或添加任何额外内容（如\"以下是翻译：\"、\"译文如下：\"等）\n" ++
  "2. 返回的译文必须和原文保持完全相同的段落数量和格式\n" ++
  "3. 如果文本包含HTML标签，请在翻译后考虑标签应放在译文的哪个位置，同时保持译文的流畅性\n" ++
  "4. 对于无需翻译的内容（如专有名词、代码等），请保留原文。\n" ++
  "需要翻译的内容如下：\n"

/-- The single HTTP POST request `Translator.translate` issues:
URL, JSON payload fields, and the optional `Authorization` header. -/
structure HttpRequest where
  url : String
  model : String
  messages : List (String × String)
  temperature : ℚ
  stream : Bool
  authHeader : Option String
deriving Repr, DecidableEq

/-- Request construction in `Translator.translate` (translator.py lines
46-65): one user message `prefix + text`, temperature 0.2, stream false;
the bearer header is set iff `self._api_config.api_key` is truthy
(`None` and the empty string are falsy in Python). -/
def buildRequest (cfg : ApiConfig) (text : String) : HttpRequest :=
  { url := cfg.endpoint
    model := cfg.model
    messages := [("user", fixedInstruction ++ text)]
    temperature := 0.2
    stream := false
    authHeader :=
      match cfg.api_key with
      | some k => if k = "" then none else some ("Bearer " ++ k)
      | none => none }

/-- The network/parse outcome of the POST: `.ok content` models a 2xx
response whose body parsed to `choices[0].message.content = content`;
`.error` models any raised exception (network failure, non-2xx status
via `raise_for_status`, or malformed body), which `translate` re-raises. -/
def translate (cfg : ApiConfig) (text : String) (resp : Except String String) :
    HttpRequest × Except String TranslationResult :=
  (buildRequest cfg text,
   match resp with
   | .ok content => .ok ⟨pyStrip content⟩
   | .error e => .error e)

end Translator

namespace Audio

/-- `audio_processor.py` `AudioResult`. -/
structure AudioResult where
  text : String
  confidence : ℚ
deriving Repr, DecidableEq

/-- `current_text.endswith(('.', '!', '?', '。', '！', '？', ' ', '。', '！', '？'))`
(audio_processor.py line 282): every element of the tuple is a single
character, so this is a check on the last character. -/
def sentenceEnd (s : String) : Bool :=
  match s.data.getLast? with
  | some c => c ∈ ['.', '!', '?', '。', '！', '？', ' ']
  | none => false

/-- The last character is one of the six sentence-terminating
punctuation marks (the code's tuple minus the space, which a stripped
non-empty string can never end with). -/
def endsInTerminator (s : String) : Bool :=
  match s.data.getLast? with
  | some c => c ∈ ['.', '!', '?', '。', '！', '？']
  | none => false

/-- `AudioProcessor.read_text` (audio_processor.py lines 252-290).
`running` is `self._running`, `recog` is `self._recognizer is not None`.
`finalRes` models `self._recognizer.Result()`: `none` when the raw
string is falsy or fails to parse, `some t` when it parses with `'text'`
field `t` (before stripping).  `interimRes` likewise models
`PartialResult()` with its `'partial'` field.  `lastText` is
`self._last_partial_text`.  Returns the result list and the new
`self._last_partial_text`. -/
def read_text (running recog : Bool) (finalRes interimRes : Option String)
    (lastText : String) : List AudioResult × String :=
  if recog && running then
    match finalRes with
    | some f =>
      let t := pyStrip f
      if t ≠ "" && t ≠ lastText then ([⟨t, 0.9⟩], t)
      else ([], lastText)
    | none =>
      match interimRes with
      | some p =>
        let t := pyStrip p
        if t ≠ "" && t ≠ lastText && sentenceEnd t then ([⟨t, 0.7⟩], t)
        else ([], lastText)
      | none => ([], lastText)
  else ([], lastText)

end Audio

end ScreenTranslate

namespace ScreenTranslate

-- sanity examples (cache behaviour on concrete inputs)
example : normalize "a  b" = "a b" := by decide
example : normalize "   " = "" := by decide
example : (Cache.should_translate ⟨2, none⟩ "hello" 0).1 = true := by decide
example :
    (Cache.should_translate
      (Cache.should_translate ⟨2, none⟩ "hello" 0).2 "hello" 1).1 = false := by
  decide

/-! ## Lemmas about the whitespace normalization -/

theorem noLeadWS_eq_head (l : List Char) : noLeadWS l = notWSopt l.head? := by
  cases l <;> rfl

theorem noTrailWS_eq_getLast (l : List Char) :
    noTrailWS l = notWSopt l.getLast? := by
  induction l with
  | nil => rfl
  | cons c rest ih =>
    cases rest with
    | nil => rfl
    | cons d rest' =>
      rw [List.getLast?_cons_cons]
      exact ih

theorem noTrailWS_cons_cons (a b : Char) (l : List Char) :
    noTrailWS (a :: b :: l) = noTrailWS (b :: l) := rfl

theorem noAdjWS_cons (a : Char) (l : List Char) :
    noAdjWS (a :: l) = ((noLeadWS l || !isWS a) && noAdjWS l) := by
  cases l with
  | nil => simp [noAdjWS, noLeadWS]
  | cons b rest =>
    show ((!(isWS a && isWS b)) && noAdjWS (b :: rest)) =
      ((noLeadWS (b :: rest) || !isWS a) && noAdjWS (b :: rest))
    simp only [noLeadWS]
    cases isWS a <;> cases isWS b <;> simp

theorem noLead_collapseAux_true (l : List Char) :
    noLeadWS (collapseAux true l) = true := by
  induction l with
  | nil => rfl
  | cons c rest ih =>
    show noLeadWS (if isWS c then collapseAux true rest else c :: collapseAux false rest) = true
    by_cases h : isWS c
    · simp only [h, if_pos]
      exact ih
    · simp only [h, Bool.false_eq_true, if_neg, not_false_iff]
      simp [noLeadWS, h]

theorem noAdj_collapseAux (l : List Char) (b : Bool) :
    noAdjWS (collapseAux b l) = true := by
  induction l generalizing b with
  | nil => rfl
  | cons c rest ih =>
    show noAdjWS (if isWS c then (if b then collapseAux true rest
        else ' ' :: collapseAux true rest) else c :: collapseAux false rest) = true
    by_cases h : isWS c
    · simp only [h, if_pos]
      cases b with
      | true => exact ih true
      | false =>
        simp only [Bool.false_eq_true, if_neg, not_false_iff]
        rw [noAdjWS_cons]
        simp [noLead_collapseAux_true, ih true]
    · simp only [h, Bool.false_eq_true, if_neg, not_false_iff]
      rw [noAdjWS_cons]
      simp [h, ih false]

theorem noLead_collapseAux_false (l : List Char) (h : noLeadWS l = true) :
    noLeadWS (collapseAux false l) = true := by
  cases l with
  | nil => rfl
  | cons c rest =>
    simp only [noLeadWS] at h
    show noLeadWS (if isWS c then ' ' :: collapseAux true rest
        else c :: collapseAux false rest) = true
    simp only [Bool.not_eq_true'] at h
    simp [h, noLeadWS]

theorem collapseAux_ne_nil (l : List Char) (b : Bool) (hne : l ≠ [])
    (ht : noTrailWS l = true) : collapseAux b l ≠ [] := by
  induction l generalizing b with
  | nil => exact absurd rfl hne
  | cons c rest ih =>
    show (if isWS c then (if b then collapseAux true rest
        else ' ' :: collapseAux true rest) else c :: collapseAux false rest) ≠ []
    by_cases h : isWS c
    · simp only [h, if_pos]
      cases rest with
      | nil => simp [noTrailWS, h] at ht
      | cons d rest' =>
        rw [noTrailWS_cons_cons] at ht
        cases b with
        | true => exact ih true (by simp) ht
        | false => simp
    · simp [h]

theorem noTrail_collapseAux (l : List Char) (b : Bool)
    (ht : noTrailWS l = true) : noTrailWS (collapseAux b l) = true := by
  induction l generalizing b with
  | nil => rfl
  | cons c rest ih =>
    show noTrailWS (if isWS c then (if b then collapseAux true rest
        else ' ' :: collapseAux true rest) else c :: collapseAux false rest) = true
    cases rest with
    | nil =>
      simp only [noTrailWS, Bool.not_eq_true'] at ht
      simp [ht, noTrailWS]
    | cons d rest' =>
      rw [noTrailWS_cons_cons] at ht
      by_cases h : isWS c
      · simp only [h, if_pos]
        cases b with
        | true => exact ih true ht
        | false =>
          simp only [Bool.false_eq_true, if_neg, not_false_iff]
          have hne := collapseAux_ne_nil (d :: rest') true (by simp) ht
          obtain ⟨x, xs, hx⟩ := List.exists_cons_of_ne_nil hne
          rw [hx, noTrailWS_cons_cons, ← hx]
          exact ih true ht
      · simp only [h, Bool.false_eq_true, if_neg, not_false_iff]
        have hne := collapseAux_ne_nil (d :: rest') false (by simp) ht
        obtain ⟨x, xs, hx⟩ := List.exists_cons_of_ne_nil hne
        rw [hx, noTrailWS_cons_cons, ← hx]
        exact ih false ht

theorem noLead_dropWhile (l : List Char) :
    noLeadWS (l.dropWhile isWS) = true := by
  induction l with
  | nil => rfl
  | cons c rest ih =>
    by_cases h : isWS c
    · rw [List.dropWhile_cons_of_pos h]
      exact ih
    · rw [List.dropWhile_cons_of_neg h]
      simp [noLeadWS, h]

theorem getLast?_dropWhile {α : Type} (p : α → Bool) (l : List α)
    (h : l.dropWhile p ≠ []) : (l.dropWhile p).getLast? = l.getLast? := by
  induction l with
  | nil => simp at h
  | cons c rest ih =>
    by_cases hp : p c
    · rw [List.dropWhile_cons_of_pos hp] at h ⊢
      have hrest : rest ≠ [] := by
        intro he
        rw [he] at h
        simp at h
      obtain ⟨d, rest', hd⟩ := List.exists_cons_of_ne_nil hrest
      rw [ih h, hd, List.getLast?_cons_cons]
    · rw [List.dropWhile_cons_of_neg hp]

theorem noTrail_stripWS (l : List Char) : noTrailWS (stripWS l) = true := by
  unfold stripWS
  rw [noTrailWS_eq_getLast, List.getLast?_reverse, ← noLeadWS_eq_head]
  exact noLead_dropWhile _

theorem noLead_stripWS (l : List Char) (h : stripWS l ≠ []) :
    noLeadWS (stripWS l) = true := by
  unfold stripWS at h ⊢
  rw [noLeadWS_eq_head, List.head?_reverse]
  have hne : (l.dropWhile isWS).reverse.dropWhile isWS ≠ [] := by
    intro he
    rw [he] at h
    simp at h
  rw [getLast?_dropWhile _ _ hne, List.getLast?_reverse, ← noLeadWS_eq_head]
  exact noLead_dropWhile _

theorem data_normalize (s : String) :
    (normalize s).data = collapseWS (stripWS s.data) := rfl

theorem normalize_ne_empty_iff (s : String) :
    normalize s ≠ "" ↔ collapseWS (stripWS s.data) ≠ [] := by
  constructor
  · intro h he
    exact h (congrArg String.mk he)
  · intro h he
    exact h (congrArg String.data he)

/-- On non-blank input, `normalize` produces a non-empty string with no
leading/trailing whitespace and no two adjacent whitespace characters. -/
theorem isNormalized_normalize (s : String) (h : normalize s ≠ "") :
    isNormalizedStr (normalize s) = true := by
  have hcol : collapseWS (stripWS s.data) ≠ [] :=
    (normalize_ne_empty_iff s).mp h
  have hstrip : stripWS s.data ≠ [] := by
    intro he
    rw [stripWS] at he
    apply hcol
    rw [stripWS, he]
    rfl
  unfold isNormalizedStr
  rw [data_normalize]
  unfold collapseWS at hcol ⊢
  simp only [Bool.and_eq_true, Bool.not_eq_true']
  refine ⟨⟨⟨?_, ?_⟩, ?_⟩, ?_⟩
  · simpa [List.isEmpty_iff] using hcol
  · exact noLead_collapseAux_false _ (noLead_stripWS _ hstrip)
  · exact noTrail_collapseAux _ _ (noTrail_stripWS _)
  · exact noAdj_collapseAux _ _

/-! ## Lemmas about the deduplication cache -/

/-- When `should_translate` returns `true`, the cache afterwards holds
exactly the normalized input text stamped with the call time. -/
theorem should_translate_true_entry (c : Cache.TranslationCache) (s : String)
    (now : ℤ) (h : (Cache.should_translate c s now).1 = true) :
    (Cache.should_translate c s now).2 = ⟨c.ttl, some ⟨normalize s, now⟩⟩ := by
  unfold Cache.should_translate at h ⊢
  by_cases hn : normalize s = ""
  · simp [hn] at h
  · cases hc : c.entry with
    | none => simp [hn, hc]
    | some e =>
      by_cases hcond : normalize s ≠ e.text ∨ now - e.timestamp > c.ttl
      · simp [hn, hc, hcond]
      · simp [hn, hc, hcond] at h

/-- When `should_translate` returns `true` the normalized input was
non-empty. -/
theorem should_translate_true_ne (c : Cache.TranslationCache) (s : String)
    (now : ℤ) (h : (Cache.should_translate c s now).1 = true) :
    normalize s ≠ "" := by
  intro hn
  unfold Cache.should_translate at h
  simp [hn] at h

/-! ## Claim theorems -/

/-- C4: for any text whose normalization is non-empty, starting from an
empty cache, `should_translate` returns `true`, then `false` when called
again with elapsed time at most the TTL; called instead with elapsed
time strictly greater than the TTL it returns `true` and replaces the
stored entry with a fresh timestamp. -/
theorem c4_dedup_within_and_after_ttl (ttl t0 t1 t2 : ℤ) (T : String)
    (hn : normalize T ≠ "") (h1 : t1 - t0 ≤ ttl) (h2 : t2 - t0 > ttl) :
    (Cache.should_translate ⟨ttl, none⟩ T t0).1 = true ∧
    (Cache.should_translate (Cache.should_translate ⟨ttl, none⟩ T t0).2 T t1).1
      = false ∧
    (Cache.should_translate (Cache.should_translate ⟨ttl, none⟩ T t0).2 T t2).1
      = true ∧
    (Cache.should_translate (Cache.should_translate ⟨ttl, none⟩ T t0).2 T t2).2.entry
      = some ⟨normalize T, t2⟩ := by
  have hfirst : Cache.should_translate ⟨ttl, none⟩ T t0
      = (true, ⟨ttl, some ⟨normalize T, t0⟩⟩) := by
    simp [Cache.should_translate, hn]
  refine ⟨by rw [hfirst], ?_, ?_, ?_⟩
  · rw [hfirst]
    simp [Cache.should_translate, hn, not_lt.mpr h1]
  · rw [hfirst]
    simp [Cache.should_translate, hn, h2]
  · rw [hfirst]
    simp [Cache.should_translate, hn, h2]

/-- C4 witness at TTL 2, times 0/1/3, text `"hi"`. -/
theorem c4_witness :
    (Cache.should_translate ⟨2, none⟩ "hi" 0).1 = true ∧
    (Cache.should_translate (Cache.should_translate ⟨2, none⟩ "hi" 0).2 "hi" 1).1
      = false ∧
    (Cache.should_translate (Cache.should_translate ⟨2, none⟩ "hi" 0).2 "hi" 3).1
      = true ∧
    (Cache.should_translate (Cache.should_translate ⟨2, none⟩ "hi" 0).2 "hi" 3).2.entry
      = some ⟨normalize "hi", 3⟩ :=
  c4_dedup_within_and_after_ttl 2 0 1 3 "hi" (by decide) (by decide) (by decide)

/-- C5: on input whose normalization is empty (the empty string or a
whitespace-only string), `should_translate` returns `false` and the
cache state — whatever it was — is unchanged. -/
theorem c5_blank_input_no_state_change (c : Cache.TranslationCache) (s : String)
    (now : ℤ) (h : normalize s = "") :
    Cache.should_translate c s now = (false, c) := by
  simp [Cache.should_translate, h]

/-- C5 witness: `"   "` against a cache holding an entry, and `""`
against an empty cache. -/
theorem c5_witness :
    Cache.should_translate ⟨5, some ⟨"x", 0⟩⟩ "   " 7 = (false, ⟨5, some ⟨"x", 0⟩⟩) ∧
    Cache.should_translate ⟨5, none⟩ "" 0 = (false, ⟨5, none⟩) :=
  ⟨c5_blank_input_no_state_change ⟨5, some ⟨"x", 0⟩⟩ "   " 7 (by decide),
   c5_blank_input_no_state_change ⟨5, none⟩ "" 0 (by decide)⟩

/-- C6: texts with equal normalizations are treated as the same text:
after a `should_translate` call that returned `true`, a call with any
text of the same normalization within the TTL returns `false`. -/
theorem c6_normalization_identifies_texts (c : Cache.TranslationCache)
    (s1 s2 : String) (t0 t1 : ℤ)
    (heq : normalize s1 = normalize s2)
    (h1 : (Cache.should_translate c s1 t0).1 = true)
    (hel : t1 - t0 ≤ c.ttl) :
    (Cache.should_translate (Cache.should_translate c s1 t0).2 s2 t1).1 = false := by
  have hn1 : normalize s1 ≠ "" := should_translate_true_ne c s1 t0 h1
  have hn2 : normalize s2 ≠ "" := heq ▸ hn1
  rw [should_translate_true_entry c s1 t0 h1]
  simp [Cache.should_translate, hn2, heq, not_lt.mpr hel]

/-- C6 witness: `"a  b"` then `"a b"` (the spec's example pair) return
`true` then `false`. -/
theorem c6_witness :
    (Cache.should_translate
      (Cache.should_translate ⟨2, none⟩ "a  b" 0).2 "a b" 0).1 = false :=
  c6_normalization_identifies_texts ⟨2, none⟩ "a  b" "a b" 0 0
    (by decide) (by decide) (by decide)

/-- C10: every call to `should_translate` preserves the invariant that
the stored entry, when present, holds a non-empty text with no
leading/trailing whitespace and no run of two or more consecutive
whitespace characters. -/
theorem c10_entry_invariant_preserved (c : Cache.TranslationCache) (s : String)
    (now : ℤ) (h : Cache.entryNormalizedB c = true) :
    Cache.entryNormalizedB (Cache.should_translate c s now).2 = true := by
  unfold Cache.should_translate
  by_cases hn : normalize s = ""
  · simpa [hn] using h
  · have hnorm := isNormalized_normalize s hn
    cases hc : c.entry with
    | none => simp [hn, hc, Cache.entryNormalizedB, hnorm]
    | some e =>
      by_cases hcond : normalize s ≠ e.text ∨ now - e.timestamp > c.ttl
      · simp [hn, hc, hcond, Cache.entryNormalizedB, hnorm]
      · have h' : isNormalizedStr e.text = true := by
          unfold Cache.entryNormalizedB at h
          rw [hc] at h
          exact h
        simp [hn, hc, hcond, Cache.entryNormalizedB, h']

/-- C10 witness: a call on a messy text against an empty cache leaves a
normalized entry. -/
theorem c10_witness :
    Cache.entryNormalizedB (Cache.should_translate ⟨2, none⟩ " a  b " 0).2 = true :=
  c10_entry_invariant_preserved ⟨2, none⟩ " a  b " 0 (by decide)

/-- C1: the code contradicts the claim.  `TranslationEngine.start` sets
`self._running` before the fallible `self._ocr.start()` call
(engine.py line 44 vs line 53); when `OCRProcessor.start()` raises
because `easyocr` is missing, the error is surfaced to the caller and no
run loop has started, but `is_running` reports `true` afterward, not
`false`: the engine is not left `Idle`. -/
theorem c1_failed_start_leaves_running_set :
    (Engine.start Engine.initEngine false).2
        = some "EasyOCR 未安装，请先安装依赖 easyocr。" ∧
    Engine.is_running (Engine.start Engine.initEngine false).1 = true ∧
    (Engine.start Engine.initEngine false).1.threadStartCount = 0 := by
  decide

/-- C2 counterexample: an iteration whose capture fails executes two
`self._sleep_interval()` calls — the explicit one before `continue`
(engine.py line 84) and the `finally` one (line 138) — refuting the
claim that exactly one sleep occurs per iteration. -/
theorem c2_counterexample :
    (Engine.runIteration ⟨2, none⟩ 0 Engine.CaptureOutcome.fail
        (Engine.TranslateOutcome.returns "你好") true "auto" "zh").sleeps = 2 ∧
    (Engine.runIteration ⟨2, none⟩ 0 Engine.CaptureOutcome.fail
        (Engine.TranslateOutcome.returns "你好") true "auto" "zh").sleeps ≠ 1 := by
  decide

/-- C2 amended: each iteration of the run loop sleeps the poll interval
exactly once when the iteration reaches the translation stage (success,
translator-`None`, or error), and exactly twice when it takes a skip
path (capture failure, empty merged text, or deduplication skip),
because the skip paths sleep explicitly before `continue` and the
`finally` clause then sleeps again. -/
theorem c2_sleep_once_or_twice (cache : Cache.TranslationCache) (now : ℤ)
    (cap : Engine.CaptureOutcome) (trans : Engine.TranslateOutcome)
    (translatorSet : Bool) (srcLang tgtLang : String) :
    (Engine.runIteration cache now cap trans translatorSet srcLang tgtLang).sleeps
      = if Engine.skipsCycle cache now cap then 2 else 1 := by
  cases cap with
  | fail => rfl
  | frame rs =>
    unfold Engine.runIteration Engine.runBody Engine.skipsCycle
    by_cases h : Engine.mergeText rs = ""
    · simp [h]
    · by_cases h2 : (Cache.should_translate cache (Engine.mergeText rs) now).1 = true
      · cases translatorSet with
        | false => simp [h, h2]
        | true => cases trans <;> simp [h, h2]
      · simp [h, h2]

/-- A non-skipped iteration whose translation call raises: four events
ending in `engine_error`, one sleep, cache updated by the dedup check. -/
theorem runIteration_raises_eq (cache : Cache.TranslationCache) (now : ℤ)
    (rs : List Engine.OCRResult) (msg srcLang tgtLang : String)
    (h1 : Engine.mergeText rs ≠ "")
    (h2 : (Cache.should_translate cache (Engine.mergeText rs) now).1 = true) :
    Engine.runIteration cache now (.frame rs) (.raises msg) true srcLang tgtLang
      = { events := [Engine.Event.ocrTextDetected (Engine.mergeText rs),
                     Engine.Event.languageDetected srcLang,
                     Engine.Event.translationRequested (Engine.mergeText rs) srcLang tgtLang,
                     Engine.Event.engineError ("发生错误: " ++ msg)],
          sleeps := 1,
          cache := (Cache.should_translate cache (Engine.mergeText rs) now).2 } := by
  unfold Engine.runIteration Engine.runBody
  simp [h1, h2]

/-- A non-skipped iteration whose translation call succeeds: five events
ending in `translation_received` and `translation_ready`, one sleep. -/
theorem runIteration_returns_eq (cache : Cache.TranslationCache) (now : ℤ)
    (rs : List Engine.OCRResult) (out srcLang tgtLang : String)
    (h1 : Engine.mergeText rs ≠ "")
    (h2 : (Cache.should_translate cache (Engine.mergeText rs) now).1 = true) :
    Engine.runIteration cache now (.frame rs) (.returns out) true srcLang tgtLang
      = { events := [Engine.Event.ocrTextDetected (Engine.mergeText rs),
                     Engine.Event.languageDetected srcLang,
                     Engine.Event.translationRequested (Engine.mergeText rs) srcLang tgtLang,
                     Engine.Event.translationReceived out,
                     Engine.Event.translationReady out],
          sleeps := 1,
          cache := (Cache.should_translate cache (Engine.mergeText rs) now).2 } := by
  unfold Engine.runIteration Engine.runBody
  simp [h1, h2]

/-- C3: a cycle whose translation call raises emits an `engine_error`
event carrying the failure description, emits no `translation_ready`
event, proceeds to the single interval wait, and the loop goes on: a
following successful cycle still emits its `translation_ready`. -/
theorem c3_translation_failure_is_nonfatal (cache : Cache.TranslationCache)
    (now now2 : ℤ) (rs rs2 : List Engine.OCRResult) (msg out srcLang tgtLang : String)
    (h1 : Engine.mergeText rs ≠ "")
    (h2 : (Cache.should_translate cache (Engine.mergeText rs) now).1 = true)
    (h3 : Engine.mergeText rs2 ≠ "")
    (h4 : (Cache.should_translate
        (Engine.runIteration cache now (.frame rs) (.raises msg) true srcLang tgtLang).cache
        (Engine.mergeText rs2) now2).1 = true) :
    Engine.Event.engineError ("发生错误: " ++ msg)
      ∈ (Engine.runIteration cache now (.frame rs) (.raises msg) true srcLang tgtLang).events ∧
    (∀ t, Engine.Event.translationReady t
      ∉ (Engine.runIteration cache now (.frame rs) (.raises msg) true srcLang tgtLang).events) ∧
    (Engine.runIteration cache now (.frame rs) (.raises msg) true srcLang tgtLang).sleeps = 1 ∧
    Engine.Event.translationReady out
      ∈ (Engine.runLoop cache true srcLang tgtLang
          [⟨now, .frame rs, .raises msg⟩, ⟨now2, .frame rs2, .returns out⟩]).1 := by
  have hit := runIteration_raises_eq cache now rs msg srcLang tgtLang h1 h2
  have hit2 := runIteration_returns_eq
    (Engine.runIteration cache now (.frame rs) (.raises msg) true srcLang tgtLang).cache
    now2 rs2 out srcLang tgtLang h3 h4
  refine ⟨?_, ?_, ?_, ?_⟩
  · rw [hit]
    simp
  · intro t
    rw [hit]
    simp
  · rw [hit]
  · have hloop : (Engine.runLoop cache true srcLang tgtLang
        [⟨now, .frame rs, .raises msg⟩, ⟨now2, .frame rs2, .returns out⟩]).1
        = (Engine.runIteration cache now (.frame rs) (.raises msg)
            true srcLang tgtLang).events
          ++ ((Engine.runIteration
                (Engine.runIteration cache now (.frame rs) (.raises msg)
                  true srcLang tgtLang).cache
                now2 (.frame rs2) (.returns out) true srcLang tgtLang).events
              ++ []) := rfl
    rw [hloop, hit2]
    simp

/-- C3 witness: concrete failing cycle (`"Hello"`, translator raises
`"boom"`) followed by a successful cycle (`"World"` → `"你好"`). -/
theorem c3_witness :
    Engine.Event.engineError "发生错误: boom"
      ∈ (Engine.runIteration ⟨2, none⟩ 0 (.frame [⟨"Hello", 9/10⟩]) (.raises "boom")
          true "auto" "zh").events ∧
    (∀ t, Engine.Event.translationReady t
      ∉ (Engine.runIteration ⟨2, none⟩ 0 (.frame [⟨"Hello", 9/10⟩]) (.raises "boom")
          true "auto" "zh").events) ∧
    (Engine.runIteration ⟨2, none⟩ 0 (.frame [⟨"Hello", 9/10⟩]) (.raises "boom")
        true "auto" "zh").sleeps = 1 ∧
    Engine.Event.translationReady "你好"
      ∈ (Engine.runLoop ⟨2, none⟩ true "auto" "zh"
          [⟨0, .frame [⟨"Hello", 9/10⟩], .raises "boom"⟩,
           ⟨1, .frame [⟨"World", 9/10⟩], .returns "你好"⟩]).1 := by
  have h := c3_translation_failure_is_nonfatal ⟨2, none⟩ 0 1
    [⟨"Hello", 9/10⟩] [⟨"World", 9/10⟩] "boom" "你好" "auto" "zh"
    (by decide) (by decide) (by decide) (by decide)
  exact h

/-- C8: `stop()` on an `Idle` engine is a no-op that changes no state
and raises nothing; `start()` on an `Idle` engine with a live backend
starts exactly one run loop, and a second `start()` while `Running`
returns immediately without starting another. -/
theorem c8_lifecycle_idempotent (s : Engine.EngineState)
    (hidle : s.running = false) (hdead : s.threadAlive = false)
    (hocr : s.ocrStarted = false) :
    Engine.stop s = s ∧
    (Engine.start s true).2 = none ∧
    Engine.start (Engine.start s true).1 true = ((Engine.start s true).1, none) ∧
    (Engine.start s true).1.threadStartCount = s.threadStartCount + 1 := by
  have hstart : Engine.start s true
      = (⟨true, false, true, s.threadStartCount + 1, true, true, true⟩, none) := by
    unfold Engine.start
    simp [hidle, hdead, hocr]
  refine ⟨?_, ?_, ?_, ?_⟩
  · unfold Engine.stop
    simp [hidle]
  · rw [hstart]
  · rw [hstart]
    unfold Engine.start
    simp
  · rw [hstart]

/-- C8 witness: a freshly constructed engine. -/
theorem c8_witness :
    Engine.stop Engine.initEngine = Engine.initEngine ∧
    (Engine.start Engine.initEngine true).2 = none ∧
    Engine.start (Engine.start Engine.initEngine true).1 true
      = ((Engine.start Engine.initEngine true).1, none) ∧
    (Engine.start Engine.initEngine true).1.threadStartCount
      = Engine.initEngine.threadStartCount + 1 :=
  c8_lifecycle_idempotent Engine.initEngine (by decide) (by decide) (by decide)

/-- C7: `translate` issues a single POST to the configured endpoint with
the configured model, one user message `fixed instruction ++ text`,
temperature 0.2 and stream false; the bearer header is present iff a
non-empty api_key is configured, carrying that key; and an `.ok`
response yields the first choice's message content stripped of
leading/trailing whitespace. -/
theorem c7_request_shape (cfg : Translator.ApiConfig) (text content : String) :
    (Translator.translate cfg text (.ok content)).1.url = cfg.endpoint ∧
    (Translator.translate cfg text (.ok content)).1.model = cfg.model ∧
    (Translator.translate cfg text (.ok content)).1.messages
      = [("user", Translator.fixedInstruction ++ text)] ∧
    (Translator.translate cfg text (.ok content)).1.temperature = 0.2 ∧
    (Translator.translate cfg text (.ok content)).1.stream = false ∧
    ((Translator.translate cfg text (.ok content)).1.authHeader ≠ none
      ↔ ∃ k, cfg.api_key = some k ∧ k ≠ "") ∧
    (∀ k, cfg.api_key = some k → k ≠ "" →
      (Translator.translate cfg text (.ok content)).1.authHeader
        = some ("Bearer " ++ k)) ∧
    (Translator.translate cfg text (.ok content)).2
      = .ok ⟨pyStrip content⟩ := by
  refine ⟨rfl, rfl, rfl, rfl, rfl, ?_, ?_, rfl⟩
  · unfold Translator.translate Translator.buildRequest
    cases hk : cfg.api_key with
    | none => simp
    | some k =>
      by_cases hke : k = ""
      · simp [hke]
      · simp only [hke, if_neg, if_false]
        constructor
        · intro _
          exact ⟨k, rfl, hke⟩
        · intro _
          simp
  · intro k hk hke
    unfold Translator.translate Translator.buildRequest
    rw [hk]
    simp [hke]

/-- C7 witness: endpoint/key/model `"https://e"`/`"K"`/`"m"`, input
`"hi"`, response content `" 你好 "`. -/
theorem c7_witness :
    (Translator.translate ⟨"https://e", some "K", "m", none⟩ "hi"
        (.ok " 你好 ")).1.authHeader = some "Bearer K" ∧
    (Translator.translate ⟨"https://e", some "K", "m", none⟩ "hi"
        (.ok " 你好 ")).2 = .ok ⟨"你好"⟩ ∧
    (Translator.translate ⟨"https://e", some "K", "m", none⟩ "hi"
        (.ok " 你好 ")).1.stream = false := by
  have h := c7_request_shape ⟨"https://e", some "K", "m", none⟩ "hi" " 你好 "
  refine ⟨?_, ?_, h.2.2.2.2.1⟩
  · have hb := h.2.2.2.2.2.2.1 "K" rfl (by decide)
    rw [show ("Bearer " ++ "K" : String) = "Bearer K" from by decide] at hb
    exact hb
  · have hr := h.2.2.2.2.2.2.2
    rw [show pyStrip " 你好 " = "你好" from by decide] at hr
    exact hr

/-- If a stripped string ends (per the code's tuple, which includes a
space) in a terminator, and is non-empty, it ends in one of the six real
sentence-terminating punctuation marks: a stripped string cannot end in
whitespace. -/
theorem endsInTerminator_of_sentenceEnd (p : String)
    (hs : Audio.sentenceEnd (pyStrip p) = true) :
    Audio.endsInTerminator (pyStrip p) = true := by
  have htrail : noTrailWS (pyStrip p).data = true := noTrail_stripWS p.data
  rw [noTrailWS_eq_getLast] at htrail
  unfold Audio.sentenceEnd at hs
  unfold Audio.endsInTerminator
  cases hg : (pyStrip p).data.getLast? with
  | none =>
    rw [hg] at hs
    simp at hs
  | some c =>
    rw [hg] at hs htrail
    simp only [notWSopt, Bool.not_eq_true'] at htrail
    have hcne : c ≠ ' ' := by
      intro he
      rw [he] at htrail
      exact absurd htrail (by decide)
    simp only [List.mem_cons, List.not_mem_nil, or_false, decide_eq_true_eq] at hs ⊢
    tauto

/-- C9 counterexample: `Result()` returning a payload whose `text` is
empty (which is what Vosk yields when nothing was finalized) suppresses
the partial branch entirely: a partial `"hi."` that is non-empty, new,
and ends in `'.'` is NOT returned, refuting the claim's "otherwise a
partial result is returned". -/
theorem c9_counterexample :
    Audio.read_text true true (some "") (some "hi.") "" = ([], "") ∧
    pyStrip "" = "" ∧
    pyStrip "hi." = "hi." ∧
    ("hi." : String) ≠ "" ∧
    Audio.endsInTerminator "hi." = true := by
  decide

/-- C9 amended: the final-result payload, when present, fully decides
the call — its stripped text is returned with confidence 0.9 iff
non-empty and different from the last returned text, else no spans (the
partial result is not consulted).  Only when no final payload exists is
the partial returned, with confidence 0.7, iff non-empty, new, and
ending in sentence-terminating punctuation.  At most one span is ever
returned, and any partial span satisfies the three conditions. -/
theorem c9_read_text_selection (finalRes interimRes : Option String)
    (lastText : String) :
    ((Audio.read_text true true finalRes interimRes lastText).1 = [] ∨
      ∃ a, (Audio.read_text true true finalRes interimRes lastText).1 = [a]) ∧
    (∀ f, finalRes = some f → pyStrip f ≠ "" → pyStrip f ≠ lastText →
      Audio.read_text true true finalRes interimRes lastText
        = ([⟨pyStrip f, 0.9⟩], pyStrip f)) ∧
    (∀ f, finalRes = some f → (pyStrip f = "" ∨ pyStrip f = lastText) →
      Audio.read_text true true finalRes interimRes lastText = ([], lastText)) ∧
    (∀ p, finalRes = none → interimRes = some p →
      pyStrip p ≠ "" → pyStrip p ≠ lastText → Audio.sentenceEnd (pyStrip p) = true →
      Audio.read_text true true finalRes interimRes lastText
        = ([⟨pyStrip p, 0.7⟩], pyStrip p)) ∧
    (∀ a, a ∈ (Audio.read_text true true finalRes interimRes lastText).1 →
      a.confidence = 0.7 →
      a.text ≠ "" ∧ a.text ≠ lastText ∧ Audio.endsInTerminator a.text = true) ∧
    (finalRes = none → interimRes = none →
      Audio.read_text true true finalRes interimRes lastText = ([], lastText)) := by
  refine ⟨?_, ?_, ?_, ?_, ?_, ?_⟩
  · unfold Audio.read_text
    cases finalRes with
    | some f =>
      by_cases hc : pyStrip f ≠ "" ∧ pyStrip f ≠ lastText
      · simp [hc.1, hc.2]
      · rw [not_and_or, not_not, not_not] at hc
        rcases hc with h | h <;> simp [h]
    | none =>
      cases interimRes with
      | some p =>
        by_cases h1 : pyStrip p = ""
        · simp [h1]
        · by_cases h2 : pyStrip p = lastText
          · simp [h2]
          · by_cases h3 : Audio.sentenceEnd (pyStrip p) = true
            · simp [h1, h2, h3]
            · simp [h1, h2, h3]
      | none => simp
  · intro f hf h1 h2
    subst hf
    unfold Audio.read_text
    simp [h1, h2]
  · intro f hf hor
    subst hf
    unfold Audio.read_text
    rcases hor with h | h <;> simp [h]
  · intro p hf hp h1 h2 h3
    subst hf
    subst hp
    unfold Audio.read_text
    simp [h1, h2, h3]
  · intro a ha hconf
    cases finalRes with
    | some f =>
      by_cases hc : pyStrip f ≠ "" ∧ pyStrip f ≠ lastText
      · have hq : Audio.read_text true true (some f) interimRes lastText
            = ([⟨pyStrip f, 0.9⟩], pyStrip f) := by
          unfold Audio.read_text
          simp [hc.1, hc.2]
        rw [hq] at ha
        simp at ha
        rw [ha] at hconf
        have hbad : (0.9 : ℚ) = 0.7 := hconf
        norm_num at hbad
      · rw [not_and_or, not_not, not_not] at hc
        have hq : Audio.read_text true true (some f) interimRes lastText
            = ([], lastText) := by
          unfold Audio.read_text
          rcases hc with h | h <;> simp [h]
        rw [hq] at ha
        simp at ha
    | none =>
      cases interimRes with
      | some p =>
        by_cases h1 : pyStrip p = ""
        · have hq : Audio.read_text true true none (some p) lastText
              = ([], lastText) := by
            unfold Audio.read_text
            simp [h1]
          rw [hq] at ha
          simp at ha
        · by_cases h2 : pyStrip p = lastText
          · have hq : Audio.read_text true true none (some p) lastText
                = ([], lastText) := by
              unfold Audio.read_text
              simp [h2]
            rw [hq] at ha
            simp at ha
          · by_cases h3 : Audio.sentenceEnd (pyStrip p) = true
            · have hq : Audio.read_text true true none (some p) lastText
                  = ([⟨pyStrip p, 0.7⟩], pyStrip p) := by
                unfold Audio.read_text
                simp [h1, h2, h3]
              rw [hq] at ha
              simp at ha
              rw [ha]
              exact ⟨h1, h2, endsInTerminator_of_sentenceEnd p h3⟩
            · have hq : Audio.read_text true true none (some p) lastText
                  = ([], lastText) := by
                unfold Audio.read_text
                simp [h1, h2, h3]
              rw [hq] at ha
              simp at ha
      | none =>
        have hq : Audio.read_text true true none none lastText
            = ([], lastText) := rfl
        rw [hq] at ha
        simp at ha
  · intro hf hp
    subst hf
    subst hp
    rfl

/-- C9 amended witness: a final payload `" hello "` (new, non-empty) is
returned stripped with confidence 0.9. -/
theorem c9_witness :
    Audio.read_text true true (some " hello ") none ""
      = ([⟨"hello", 0.9⟩], "hello") := by
  have h := (c9_read_text_selection (some " hello ") none "").2.1
    " hello " rfl (by decide) (by decide)
  rw [show pyStrip " hello " = "hello" from by decide] at h
  exact h

end ScreenTranslate
